import Mathlib

/-!
Shallow embedding of the frame-indexed storage layer of the repository
(file src/python/sm_core/data_serialization.py, class SM_serial and the
module-level helpers _object_set_md and _subgroup_recurse).

The backing hdf5 container (library h5py) is modelled as a tree of nodes:
a node is either a dataset (an array plus an attribute map) or a group
(an attribute map plus name-keyed children).  Children form a name-keyed
map, rendered as an association list; insertion and deletion normalise
duplicate names, which real hdf5 groups cannot have.  Scalar array
elements are opaque to the store (the store copies them verbatim), so an
element is modelled abstractly as a pair of integers (real and imaginary
component codes); the dtype tag is carried alongside, untouched by the
store.  Attribute values are likewise opaque scalars, modelled as Int.

Python exceptions are modelled by the error type SMError, named after the
error kinds of the specification: the RuntimeError raised on a closed
store is closedStore, the RuntimeError raised on a read-only store is
readOnly, the h5py KeyError is notFound, the RuntimeError and TypeError
raised when a node has the wrong kind are structural, and the
RuntimeError raised by _object_set_md on an existing key is conflict.
Mutating operations return the post state of the store next to the
result, so that partial mutation before an exception is preserved.
-/

/-- The supported scalar dtypes: 8/16/32/64-bit signed and unsigned
integers, 32/64-bit floating, 64/128-bit complex. -/
inductive Dtype where
  | int8 | int16 | int32 | int64
  | uint8 | uint16 | uint32 | uint64
  | float32 | float64
  | complex64 | complex128
deriving DecidableEq, Repr

/-- A numpy ndarray as the store sees it: a dtype tag, a shape, and the
flat element data (each scalar element coded opaquely as a pair of
integers).  np.asarray on an ndarray is the identity, so dumps stores
this value verbatim. -/
structure NDArray where
  dtype : Dtype
  shape : List Nat
  data : List (Int × Int)
deriving DecidableEq, Repr

/-- Attribute values are opaque scalars. -/
abbrev AttrVal := Int

/-- Attribute maps (h5py .attrs) as association lists. -/
abbrev AttrMap := List (String × AttrVal)

mutual

/-- A node of the hdf5 container: a dataset or a group. -/
inductive HNode : Type where
  | dset (data : NDArray) (attrs : AttrMap) : HNode
  | group (attrs : AttrMap) (children : HChildren) : HNode

/-- The name-keyed children of a group. -/
inductive HChildren : Type where
  | nil : HChildren
  | cons (name : String) (node : HNode) (rest : HChildren) : HChildren

end

/-- Error kinds of the store, per the specification taxonomy. -/
inductive SMError where
  | closedStore
  | readOnly
  | notFound (key : String)
  | structural (msg : String)
  | conflict
deriving DecidableEq, Repr

/-- h5py group child lookup by name (first binding wins). -/
def HChildren.lookup : HChildren → String → Option HNode
  | .nil, _ => none
  | .cons k n r, key => if k = key then some n else r.lookup key

/-- h5py group child deletion (removes every binding of the name; real
groups never hold duplicate names). -/
def HChildren.erase : HChildren → String → HChildren
  | .nil, _ => .nil
  | .cons k n r, key => if k = key then r.erase key else .cons k n (r.erase key)

/-- h5py group child insertion or replacement by name (replace the
binding in place when the name is present, append otherwise). -/
def HChildren.set : HChildren → String → HNode → HChildren
  | .nil, key, node => .cons key node .nil
  | .cons k n r, key, node =>
      if k = key then .cons key node r else .cons k n (r.set key node)

/-- The names of the children, in order. -/
def HChildren.keys : HChildren → List String
  | .nil => []
  | .cons k _ r => k :: r.keys

/-- The attribute map of a node (h5py .attrs, present on groups and
datasets alike). -/
def HNode.attrs : HNode → AttrMap
  | .dset _ a => a
  | .group a _ => a

/-- Replace the attribute map of a node, keeping everything else. -/
def HNode.withAttrs : HNode → AttrMap → HNode
  | .dset d _, a => .dset d a
  | .group _ cs, a => .group a cs

/-- Attribute lookup by key. -/
def attrLookup : AttrMap → String → Option AttrVal
  | [], _ => none
  | (k, v) :: r, key => if k = key then some v else attrLookup r key

/-- Set one attribute, replacing any existing binding of the key
(obj.attrs[key] = value). -/
def attrSet : AttrMap → String → AttrVal → AttrMap
  | [], key, v => [(key, v)]
  | (k, v0) :: r, key, v => if k = key then (key, v) :: r else (k, v0) :: attrSet r key v

/-- Set every pair of the incoming map in order (the for-loop
`for key, value in meta_data.items(): obj.attrs[key] = value`). -/
def attrsSetAll (a : AttrMap) (md : AttrMap) : AttrMap :=
  md.foldl (fun acc kv => attrSet acc kv.1 kv.2) a

/-- Split a dataset name on the slash character, as h5py path resolution
does for names such as "b/c". -/
def splitPathAux : List Char → List Char → List String
  | [], acc => [String.mk acc.reverse]
  | c :: cs, acc =>
      if c = '/' then String.mk acc.reverse :: splitPathAux cs []
      else splitPathAux cs (c :: acc)

/-- Path segments of a dataset name. -/
def splitPath (s : String) : List String := splitPathAux s.data []

/-- Path lookup from a node (h5py getitem, one segment per level);
a missing name, or a path that descends into a dataset, raises KeyError. -/
def hGetPath : HNode → List String → Except SMError HNode
  | n, [] => .ok n
  | .dset _ _, seg :: _ => .error (.notFound seg)
  | .group _ cs, seg :: rest =>
      match cs.lookup seg with
      | none => .error (.notFound seg)
      | some c => hGetPath c rest

/-- h5py File.require_group: returns the group at the path, creating any
missing level; fails with a structural error when a non-group object
occupies a level (the TypeError branch of SM_serial._require_grp). -/
def requireGroupPath : HNode → List String → Except SMError HNode
  | .group a cs, [] => .ok (.group a cs)
  | .dset _ _, _ => .error (.structural "A non-group exists where the group needs to go")
  | .group a cs, seg :: rest =>
      let child := (cs.lookup seg).getD (.group [] .nil)
      match requireGroupPath child rest with
      | .error e => .error e
      | .ok child2 => .ok (.group a (cs.set seg child2))

/-- h5py Group.create_dataset with a (possibly nested) name: creates the
missing intermediate groups and a fresh dataset, with an empty attribute
map, from the given data.  Fails when a level is occupied by a dataset
or when the final name already exists. -/
def createDatasetPath : HNode → List String → NDArray → Except SMError HNode
  | .dset _ _, _, _ => .error (.structural "cannot create a dataset under a dataset")
  | .group _ _, [], _ => .error (.structural "empty dataset name")
  | .group a cs, [seg], data =>
      match cs.lookup seg with
      | some _ => .error (.structural "name already in use")
      | none => .ok (.group a (cs.set seg (.dset data [])))
  | .group a cs, seg :: rest, data =>
      let child := (cs.lookup seg).getD (.group [] .nil)
      match createDatasetPath child rest data with
      | .error e => .error e
      | .ok child2 => .ok (.group a (cs.set seg child2))

/-- Python `del grp[name]` generalised to a path: removes the binding at
the end of the path (identity when the path is missing; the call sites
only delete existing paths). -/
def deletePath : HNode → List String → HNode
  | n, [] => n
  | .dset d a, _ :: _ => .dset d a
  | .group a cs, [seg] => .group a (cs.erase seg)
  | .group a cs, seg :: rest =>
      match cs.lookup seg with
      | none => .group a cs
      | some c => .group a (cs.set seg (deletePath c rest))

/-- In-place mutation of the node at a path, rendered functionally
(identity when the path is missing; the call sites only touch existing
paths). -/
def modifyAtPath (f : HNode → HNode) : HNode → List String → HNode
  | n, [] => f n
  | .dset d a, _ :: _ => .dset d a
  | .group a cs, seg :: rest =>
      match cs.lookup seg with
      | none => .group a cs
      | some c => .group a (cs.set seg (modifyAtPath f c rest))

/-- SM_serial._format_frame_name builds the group name for frame N with
the Python format string `time_{0:07d}`: the decimal digits of N, padded
with zeros on the left to at least seven digits, after the literal
"time_".  The decimal digits are computed least-significant first with
explicit fuel (the recursion divides by ten, so N+1 steps always
suffice). -/
def natDigitsRevAux : Nat → Nat → List Nat
  | 0, _ => []
  | fuel + 1, n => if n < 10 then [n] else n % 10 :: natDigitsRevAux fuel (n / 10)

/-- Decimal digits of a natural number, least significant first. -/
def natDigitsRev (n : Nat) : List Nat := natDigitsRevAux (n + 1) n

/-- Left-pad a digit list (least significant first) to seven digits: in
that order, padding appends zeros at the end.  Numbers wider than seven
digits are printed in full, exactly as the Python format does. -/
def padTo7 (ds : List Nat) : List Nat := ds ++ List.replicate (7 - ds.length) 0

/-- SM_serial._format_frame_name: the group name of frame N, the Python
expression `'time_{0:07d}'.format(N)`, for the non-negative frame
numbers the specification supports. -/
def formatFrameName (N : Nat) : String :=
  "time_" ++ String.mk (((padTo7 (natDigitsRev N)).reverse).map Nat.digitChar)

/-- The module-level helper _object_set_md: reject the whole update when
over_write is false and some incoming key already exists on the object,
and otherwise set every incoming pair in order. -/
def objectSetMd (n : HNode) (md : AttrMap) (overWrite : Bool) : Except SMError HNode :=
  if !overWrite && md.any (fun kv => (attrLookup n.attrs kv.1).isSome) then
    .error .conflict
  else
    .ok (n.withAttrs (attrsSetAll n.attrs md))

/-- The recursive walk of the module-level helper _subgroup_recurse over
the children of a group: a dataset child contributes its path, a group
child is traversed with the extended base path (groups themselves are
never listed). -/
def subgroupRecurseC : HChildren → String → List String
  | .nil, _ => []
  | .cons k (.dset _ _) rest, basePath => (basePath ++ "/" ++ k) :: subgroupRecurseC rest basePath
  | .cons k (.group _ cs) rest, basePath =>
      subgroupRecurseC cs (basePath ++ "/" ++ k) ++ subgroupRecurseC rest basePath

/-- The module-level helper _subgroup_recurse, on a node (only ever
called on groups; base_object.keys() of a dataset is empty here). -/
def subgroupRecurse : HNode → String → List String
  | .dset _ _, _ => []
  | .group _ cs, basePath => subgroupRecurseC cs basePath

/-- The valid file modes of SM_serial._VALID_FILE_MODES. -/
def validFileModes : List String := ["r", "r+", "w", "w-", "a"]

/-- The state of an SM_serial instance: the backing h5py file (its root
group), the _write flag and the _open flag. -/
structure SMStore where
  file : HNode
  writeFlag : Bool
  openFlag : Bool

namespace SM_serial

/-- SM_serial.open (named openStore because open is reserved in Lean):
a missing mode defaults to the string "a", an invalid mode is converted
to "a" with a printed warning, and the store is writable exactly when
the mode is not "r".  The h5py File call is modelled by handing in the
container content the chosen mode observes (for the modes that open an
existing file, its current content; for the truncating create mode, an
empty root group). -/
def openStore (file : HNode) (fmode : Option String) : SMStore :=
  let m := fmode.getD "a"
  let m2 := if validFileModes.contains m then m else "a"
  { file := file, writeFlag := m2 != "r", openFlag := true }

/-- SM_serial.close: closes the backing file once; a second call finds
_open false and does nothing.  Never raises. -/
def close (s : SMStore) : SMStore :=
  if s.openFlag then { s with openFlag := false } else s

/-- SM_serial.loads: read dataset data_set of frame frame_num, the
expression `self._file[self._format_frame_name(frame_num)][data_set][:]`.
The trailing full slice materialises a dataset and raises a TypeError
(structural kind) on a group. -/
def loads (s : SMStore) (frameNum : Nat) (dataSet : String) : Except SMError NDArray :=
  if s.openFlag = false then .error .closedStore
  else
    match hGetPath s.file (formatFrameName frameNum :: splitPath dataSet) with
    | .error e => .error e
    | .ok (.dset d _) => .ok d
    | .ok (.group _ _) => .error (.structural "slicing a group")

/-- The final meta-data loop of SM_serial.dumps: when meta_data is
non-empty, set each pair on the dataset object unconditionally. -/
def dumpsMeta (root : HNode) (path : List String) (md : AttrMap) : HNode :=
  if md.isEmpty then root
  else modifyAtPath (fun n => n.withAttrs (attrsSetAll n.attrs md)) root path

/-- SM_serial.dumps: closed and read-only checks, np.asarray (identity
on an ndarray), _require_grp on the frame name, then the try/except on
`grp[data_set]`: a KeyError creates the dataset; an existing node is
recreated when over_write is true (after an isinstance check that
rejects groups) and left untouched when over_write is false; finally
the meta-data loop runs on whatever node the name now denotes. -/
def dumps (s : SMStore) (frameNum : Nat) (dataSet : String) (data : NDArray)
    (metaData : AttrMap) (overWrite : Bool) : Except SMError Unit × SMStore :=
  if s.openFlag = false then (.error .closedStore, s)
  else if s.writeFlag = false then (.error .readOnly, s)
  else
    match requireGroupPath s.file [formatFrameName frameNum] with
    | .error e => (.error e, s)
    | .ok root1 =>
      let path := formatFrameName frameNum :: splitPath dataSet
      match hGetPath root1 path with
      | .error (.notFound _) =>
          match createDatasetPath root1 path data with
          | .error e => (.error e, { s with file := root1 })
          | .ok root2 => (.ok (), { s with file := dumpsMeta root2 path metaData })
      | .error e => (.error e, { s with file := root1 })
      | .ok (.group _ _) =>
          if overWrite then
            (.error (.structural "there is a group (not a dataset) where the data set needs to go"),
             { s with file := root1 })
          else (.ok (), { s with file := dumpsMeta root1 path metaData })
      | .ok (.dset _ _) =>
          if overWrite then
            match createDatasetPath (deletePath root1 path) path data with
            | .error e => (.error e, { s with file := deletePath root1 path })
            | .ok root2 => (.ok (), { s with file := dumpsMeta root2 path metaData })
          else (.ok (), { s with file := dumpsMeta root1 path metaData })

/-- SM_serial.update_dset_md: closed and read-only checks, _require_grp
on the frame name, lookup of the dataset name under the frame group
(KeyError when absent), then _object_set_md on the found node. -/
def update_dset_md (s : SMStore) (frameNum : Nat) (dsetName : String)
    (metaData : AttrMap) (overWrite : Bool) : Except SMError Unit × SMStore :=
  if s.openFlag = false then (.error .closedStore, s)
  else if s.writeFlag = false then (.error .readOnly, s)
  else
    match requireGroupPath s.file [formatFrameName frameNum] with
    | .error e => (.error e, s)
    | .ok root1 =>
      let path := formatFrameName frameNum :: splitPath dsetName
      match hGetPath root1 path with
      | .error e => (.error e, { s with file := root1 })
      | .ok node =>
          match objectSetMd node metaData overWrite with
          | .error e => (.error e, { s with file := root1 })
          | .ok node2 => (.ok (), { s with file := modifyAtPath (fun _ => node2) root1 path })

/-- SM_serial.set_frame_md: closed and read-only checks, _require_grp on
the frame name (creating the frame when absent), then _object_set_md on
the frame group. -/
def set_frame_md (s : SMStore) (frameNum : Nat) (metaData : AttrMap)
    (overWrite : Bool) : Except SMError Unit × SMStore :=
  if s.openFlag = false then (.error .closedStore, s)
  else if s.writeFlag = false then (.error .readOnly, s)
  else
    match requireGroupPath s.file [formatFrameName frameNum] with
    | .error e => (.error e, s)
    | .ok root1 =>
      let path := [formatFrameName frameNum]
      match hGetPath root1 path with
      | .error e => (.error e, { s with file := root1 })
      | .ok node =>
          match objectSetMd node metaData overWrite with
          | .error e => (.error e, { s with file := root1 })
          | .ok node2 => (.ok (), { s with file := modifyAtPath (fun _ => node2) root1 path })

/-- SM_serial._open_group: the existing node at the path (KeyError when
absent), with the isinstance check that rejects everything that is not
a group. -/
def openGroupAt (root : HNode) (path : List String) : Except SMError HNode :=
  match hGetPath root path with
  | .error e => .error e
  | .ok (.group a cs) => .ok (.group a cs)
  | .ok (.dset _ _) => .error (.structural "The object found is not a group")

/-- SM_serial.get_frame_md: closed check, _open_group on the frame name,
and a copy of the attribute map of the frame group. -/
def get_frame_md (s : SMStore) (frameNum : Nat) : Except SMError AttrMap :=
  if s.openFlag = false then .error .closedStore
  else
    match openGroupAt s.file [formatFrameName frameNum] with
    | .error e => .error e
    | .ok g => .ok g.attrs

/-- SM_serial.get_dset_md: closed check, _open_group on the frame name,
lookup of the dataset name, and a copy of the attribute map of whatever
node was found — the code never checks that the node is a dataset. -/
def get_dset_md (s : SMStore) (frameNum : Nat) (dsetName : String) : Except SMError AttrMap :=
  if s.openFlag = false then .error .closedStore
  else
    match openGroupAt s.file [formatFrameName frameNum] with
    | .error e => .error e
    | .ok g =>
      match hGetPath g (splitPath dsetName) with
      | .error e => .error e
      | .ok node => .ok node.attrs

/-- SM_serial.list_dsets: closed check, _open_group on the frame name,
then _subgroup_recurse from the frame group with the empty base path. -/
def list_dsets (s : SMStore) (frameNum : Nat) : Except SMError (List String) :=
  if s.openFlag = false then .error .closedStore
  else
    match openGroupAt s.file [formatFrameName frameNum] with
    | .error e => .error e
    | .ok g => .ok (subgroupRecurse g "")

end SM_serial

/-! Basic lemmas about the container model. -/

theorem HChildren.lookup_set_self : ∀ (cs : HChildren) (k : String) (n : HNode),
    (cs.set k n).lookup k = some n
  | .nil, k, n => by simp [HChildren.set, HChildren.lookup]
  | .cons k0 n0 r, k, n => by
      by_cases h : k0 = k <;>
        simp [HChildren.set, HChildren.lookup, h, lookup_set_self r k n]

theorem HChildren.set_self : ∀ (cs : HChildren) (k : String) (n : HNode),
    cs.lookup k = some n → cs.set k n = cs
  | .nil, k, n => by simp [HChildren.lookup]
  | .cons k0 n0 r, k, n => by
      intro h
      by_cases hk : k0 = k
      · subst hk
        simp [HChildren.lookup] at h
        simp [HChildren.set, h]
      · simp [HChildren.lookup, hk] at h
        simp [HChildren.set, hk, set_self r k n h]

theorem HChildren.lookup_erase_self : ∀ (cs : HChildren) (k : String),
    (cs.erase k).lookup k = none
  | .nil, k => by simp [HChildren.erase, HChildren.lookup]
  | .cons k0 n0 r, k => by
      by_cases h : k0 = k <;>
        simp [HChildren.erase, HChildren.lookup, h, lookup_erase_self r k]

theorem HChildren.lookup_mem_keys : ∀ (cs : HChildren) (k : String) (n : HNode),
    cs.lookup k = some n → k ∈ cs.keys
  | .nil, k, n => by simp [HChildren.lookup]
  | .cons k0 n0 r, k, n => by
      intro h
      by_cases hk : k0 = k
      · subst hk; simp [HChildren.keys]
      · simp [HChildren.lookup, hk] at h
        simp [HChildren.keys, lookup_mem_keys r k n h]

theorem attrLookup_attrSet_self (a : AttrMap) (k : String) (v : AttrVal) :
    attrLookup (attrSet a k v) k = some v := by
  induction a with
  | nil => simp [attrSet, attrLookup]
  | cons kv r ih =>
      obtain ⟨k0, v0⟩ := kv
      by_cases h : k0 = k <;> simp [attrSet, attrLookup, h, ih]

theorem attrLookup_attrSet_ne (a : AttrMap) (k k2 : String) (v : AttrVal)
    (h : k ≠ k2) : attrLookup (attrSet a k v) k2 = attrLookup a k2 := by
  induction a with
  | nil => simp [attrSet, attrLookup, h]
  | cons kv r ih =>
      obtain ⟨k0, v0⟩ := kv
      by_cases h0 : k0 = k
      · subst h0; simp [attrSet, attrLookup, h]
      · simp [attrSet, attrLookup, h0, ih]

theorem attrsSetAll_lookup_not_mem (a : AttrMap) (md : AttrMap) (k : String)
    (h : k ∉ md.map Prod.fst) : attrLookup (attrsSetAll a md) k = attrLookup a k := by
  induction md generalizing a with
  | nil => simp [attrsSetAll]
  | cons kv r ih =>
      obtain ⟨k0, v0⟩ := kv
      simp only [List.map_cons, List.mem_cons] at h
      push_neg at h
      have : attrsSetAll a ((k0, v0) :: r) = attrsSetAll (attrSet a k0 v0) r := by
        simp [attrsSetAll, List.foldl_cons]
      rw [this, ih _ h.2, attrLookup_attrSet_ne _ _ _ _ (fun hh => h.1 hh.symm)]

theorem attrsSetAll_lookup_mem (a : AttrMap) (md : AttrMap) (k : String) (v : AttrVal)
    (hnd : (md.map Prod.fst).Nodup) (h : (k, v) ∈ md) :
    attrLookup (attrsSetAll a md) k = some v := by
  induction md generalizing a with
  | nil => simp at h
  | cons kv r ih =>
      obtain ⟨k0, v0⟩ := kv
      have hstep : attrsSetAll a ((k0, v0) :: r) = attrsSetAll (attrSet a k0 v0) r := by
        simp [attrsSetAll, List.foldl_cons]
      simp only [List.map_cons, List.nodup_cons] at hnd
      rcases List.mem_cons.mp h with h1 | h2
      · obtain ⟨hk, hv⟩ := Prod.mk.injEq .. ▸ h1
        subst hk; subst hv
        have : k ∉ r.map Prod.fst := hnd.1
        rw [hstep, attrsSetAll_lookup_not_mem _ _ _ this, attrLookup_attrSet_self]
      · rw [hstep]
        exact ih _ hnd.2 h2

theorem splitPathAux_ne_nil : ∀ (cs acc : List Char), splitPathAux cs acc ≠ []
  | [], acc => by simp [splitPathAux]
  | c :: cs, acc => by
      by_cases h : c = '/' <;>
        simp [splitPathAux, h, splitPathAux_ne_nil cs]

theorem splitPath_ne_nil (s : String) : splitPath s ≠ [] :=
  splitPathAux_ne_nil s.data []

theorem hGetPath_modifyAtPath (f : HNode → HNode) :
    ∀ (path : List String) (root n : HNode), hGetPath root path = .ok n →
      hGetPath (modifyAtPath f root path) path = .ok (f n) := by
  intro path
  induction path with
  | nil =>
      intro root n h
      simp [hGetPath] at h
      simp [modifyAtPath, hGetPath, h]
  | cons seg rest ih =>
      intro root n h
      match root with
      | .dset _ _ => simp [hGetPath] at h
      | .group a cs =>
          simp only [hGetPath] at h
          match hl : cs.lookup seg with
          | none => rw [hl] at h; simp at h
          | some c =>
              rw [hl] at h
              simp only [modifyAtPath, hl, hGetPath, HChildren.lookup_set_self]
              exact ih c n h

theorem createDatasetPath_get (data : NDArray) :
    ∀ (path : List String) (root root2 : HNode),
      createDatasetPath root path data = .ok root2 →
      hGetPath root2 path = .ok (.dset data []) := by
  intro path
  induction path with
  | nil =>
      intro root root2 h
      match root with
      | .dset _ _ => simp [createDatasetPath] at h
      | .group _ _ => simp [createDatasetPath] at h
  | cons seg rest ih =>
      intro root root2 h
      match root with
      | .dset _ _ => simp [createDatasetPath] at h
      | .group a cs =>
          match rest with
          | [] =>
              simp only [createDatasetPath] at h
              match hl : cs.lookup seg with
              | some _ => rw [hl] at h; simp at h
              | none =>
                  rw [hl] at h
                  simp only [Except.ok.injEq] at h
                  subst h
                  simp [hGetPath, HChildren.lookup_set_self]
          | seg2 :: rest2 =>
              simp only [createDatasetPath] at h
              match hc : createDatasetPath ((cs.lookup seg).getD (.group [] .nil)) (seg2 :: rest2) data with
              | .error e => rw [hc] at h; simp at h
              | .ok child2 =>
                  rw [hc] at h
                  simp only [Except.ok.injEq] at h
                  subst h
                  simp only [hGetPath, HChildren.lookup_set_self]
                  exact ih _ child2 hc

theorem delete_then_create (data : NDArray) :
    ∀ (path : List String) (root n : HNode), hGetPath root path = .ok n → path ≠ [] →
      ∃ root2, createDatasetPath (deletePath root path) path data = .ok root2 := by
  intro path
  induction path with
  | nil => intro root n _ hne; exact absurd rfl hne
  | cons seg rest ih =>
      intro root n h _
      match root with
      | .dset _ _ => simp [hGetPath] at h
      | .group a cs =>
          simp only [hGetPath] at h
          match hl : cs.lookup seg with
          | none => rw [hl] at h; simp at h
          | some c =>
              rw [hl] at h
              match rest with
              | [] =>
                  refine ⟨.group a ((cs.erase seg).set seg (.dset data [])), ?_⟩
                  simp [deletePath, createDatasetPath, HChildren.lookup_erase_self]
              | seg2 :: rest2 =>
                  obtain ⟨child2, hc⟩ := ih c n h (by simp)
                  refine ⟨.group a ((cs.set seg (deletePath c (seg2 :: rest2))).set seg child2), ?_⟩
                  simp only [deletePath, hl, createDatasetPath, HChildren.lookup_set_self,
                    Option.getD_some, hc]

theorem requireGroupPath_exists (a : AttrMap) (cs : HChildren) (p : String)
    (b : AttrMap) (ds : HChildren) (h : cs.lookup p = some (.group b ds)) :
    requireGroupPath (.group a cs) [p] = .ok (.group a cs) := by
  simp only [requireGroupPath, h, Option.getD_some]
  rw [HChildren.set_self cs p (.group b ds) h]

theorem requireGroupPath_absent (a : AttrMap) (cs : HChildren) (p : String)
    (h : cs.lookup p = none) :
    requireGroupPath (.group a cs) [p] = .ok (.group a (cs.set p (.group [] .nil))) := by
  simp [requireGroupPath, h]

theorem requireGroupPath_dset (a : AttrMap) (cs : HChildren) (p : String)
    (d : NDArray) (da : AttrMap) (h : cs.lookup p = some (.dset d da)) :
    requireGroupPath (.group a cs) [p] =
      .error (.structural "A non-group exists where the group needs to go") := by
  simp [requireGroupPath, h]

/-! Decimal digit lemmas for the frame-name format. -/

/-- The value of a least-significant-first digit list. -/
def evalDigitsRev : List Nat → Nat
  | [] => 0
  | d :: ds => d + 10 * evalDigitsRev ds

theorem natDigitsRevAux_eval : ∀ (fuel n : Nat), n < fuel →
    evalDigitsRev (natDigitsRevAux fuel n) = n := by
  intro fuel
  induction fuel with
  | zero => intro n h; omega
  | succ f ih =>
      intro n h
      by_cases h10 : n < 10
      · simp [natDigitsRevAux, h10, evalDigitsRev]
      · have hrec : evalDigitsRev (natDigitsRevAux f (n / 10)) = n / 10 := ih _ (by omega)
        simp only [natDigitsRevAux, h10, if_false, evalDigitsRev, hrec]
        omega

theorem natDigitsRev_eval (n : Nat) : evalDigitsRev (natDigitsRev n) = n :=
  natDigitsRevAux_eval (n + 1) n (Nat.lt_succ_self n)

theorem natDigitsRevAux_lt_10 : ∀ (fuel n : Nat) (d : Nat),
    d ∈ natDigitsRevAux fuel n → d < 10 := by
  intro fuel
  induction fuel with
  | zero => intro n d h; simp [natDigitsRevAux] at h
  | succ f ih =>
      intro n d h
      by_cases h10 : n < 10
      · simp [natDigitsRevAux, h10] at h
        omega
      · simp only [natDigitsRevAux, h10, if_false, List.mem_cons] at h
        rcases h with h | h
        · omega
        · exact ih _ _ h

theorem evalDigitsRev_append_zeros (ds : List Nat) (k : Nat) :
    evalDigitsRev (ds ++ List.replicate k 0) = evalDigitsRev ds := by
  induction ds with
  | nil =>
      simp only [List.nil_append]
      induction k with
      | zero => simp [evalDigitsRev]
      | succ k2 ih => simp [List.replicate_succ, evalDigitsRev, ih]
  | cons d r ih => simp [evalDigitsRev, ih]

theorem evalDigitsRev_padTo7 (ds : List Nat) :
    evalDigitsRev (padTo7 ds) = evalDigitsRev ds :=
  evalDigitsRev_append_zeros ds _

/-- Recover a digit from its character. -/
def charToDigit (c : Char) : Nat := c.toNat - 48

theorem charToDigit_digitChar (d : Nat) (h : d < 10) :
    charToDigit (Nat.digitChar d) = d := by
  interval_cases d <;> rfl

theorem map_digitChar_inj (l1 l2 : List Nat)
    (h1 : ∀ d ∈ l1, d < 10) (h2 : ∀ d ∈ l2, d < 10)
    (h : l1.map Nat.digitChar = l2.map Nat.digitChar) : l1 = l2 := by
  have := congrArg (List.map charToDigit) h
  rw [List.map_map, List.map_map] at this
  calc l1 = l1.map (charToDigit ∘ Nat.digitChar) := by
            rw [List.map_congr_left, List.map_id]
            intro d hd
            exact charToDigit_digitChar d (h1 d hd)
    _ = l2.map (charToDigit ∘ Nat.digitChar) := this
    _ = l2 := by
            rw [List.map_congr_left, List.map_id]
            intro d hd
            exact charToDigit_digitChar d (h2 d hd)

theorem formatFrameName_inj_all (m n : Nat)
    (h : formatFrameName m = formatFrameName n) : m = n := by
  have hdata := congrArg String.data h
  simp only [formatFrameName, String.data_append] at hdata
  have hmk := List.append_cancel_left hdata
  have hrev :
      ((padTo7 (natDigitsRev m)).reverse).map Nat.digitChar =
      ((padTo7 (natDigitsRev n)).reverse).map Nat.digitChar := hmk
  have hlt : ∀ (x : Nat) (d : Nat), d ∈ (padTo7 (natDigitsRev x)).reverse → d < 10 := by
    intro x d hd
    rw [List.mem_reverse] at hd
    rcases List.mem_append.mp hd with hd | hd
    · exact natDigitsRevAux_lt_10 _ _ _ hd
    · have := List.eq_of_mem_replicate hd
      omega
  have hpad := map_digitChar_inj _ _ (hlt m) (hlt n) hrev
  have hpad2 := List.reverse_injective hpad
  have hm := evalDigitsRev_padTo7 (natDigitsRev m)
  have hn := evalDigitsRev_padTo7 (natDigitsRev n)
  rw [hpad2] at hm
  rw [natDigitsRev_eval] at hm hn
  omega

theorem hGetPath_cons_ok (root : HNode) (seg : String) (rest : List String) (n : HNode)
    (h : hGetPath root (seg :: rest) = .ok n) :
    ∃ a cs c, root = .group a cs ∧ cs.lookup seg = some c ∧ hGetPath c rest = .ok n := by
  match root with
  | .dset _ _ => simp [hGetPath] at h
  | .group a cs =>
      simp only [hGetPath] at h
      match hl : cs.lookup seg with
      | none => rw [hl] at h; simp at h
      | some c => rw [hl] at h; exact ⟨a, cs, c, rfl, hl, h⟩

theorem hGetPath_ok_group_of_ne_nil (c : HNode) (segs : List String) (n : HNode)
    (h : hGetPath c segs = .ok n) (hne : segs ≠ []) : ∃ b ds, c = .group b ds := by
  match segs with
  | [] => exact absurd rfl hne
  | seg :: rest =>
      match c with
      | .dset _ _ => simp [hGetPath] at h
      | .group b ds => exact ⟨b, ds, rfl⟩

/-! The claims. -/

/-- C6: frame-name formatting is a total function on the non-negative
integers, injective within the seven-digit width, and deterministic on
the documented examples: frame 42 formats to "time_0000042" and frame 0
to "time_0000000". -/
theorem frame_name_total_injective_deterministic :
    (∀ m n : Nat, m < 10 ^ 7 → n < 10 ^ 7 →
        formatFrameName m = formatFrameName n → m = n) ∧
    formatFrameName 42 = "time_0000042" ∧
    formatFrameName 0 = "time_0000000" :=
  ⟨fun m n _ _ h => formatFrameName_inj_all m n h, by rfl, by rfl⟩

/-- Witness for C6 at the concrete frame number 42. -/
theorem frame_name_total_injective_deterministic_witness : (42 : Nat) = 42 :=
  frame_name_total_injective_deterministic.1 42 42 (by norm_num) (by norm_num) rfl

theorem close_openFlag (s : SMStore) : (SM_serial.close s).openFlag = false := by
  by_cases h : s.openFlag <;> simp [SM_serial.close, h]

theorem close_of_closed (t : SMStore) (h : t.openFlag = false) : SM_serial.close t = t := by
  simp [SM_serial.close, h]

/-- C5: close is idempotent (a second close changes nothing and raises
nothing — close never raises by construction), and after a close every
operation of the store fails with the closed-store error. -/
theorem close_idempotent_and_closed_rejects_all (s : SMStore) (f : Nat) (name : String)
    (data : NDArray) (md : AttrMap) (ow : Bool) :
    SM_serial.close (SM_serial.close s) = SM_serial.close s ∧
    SM_serial.loads (SM_serial.close s) f name = .error .closedStore ∧
    SM_serial.dumps (SM_serial.close s) f name data md ow
      = (.error .closedStore, SM_serial.close s) ∧
    SM_serial.set_frame_md (SM_serial.close s) f md ow
      = (.error .closedStore, SM_serial.close s) ∧
    SM_serial.update_dset_md (SM_serial.close s) f name md ow
      = (.error .closedStore, SM_serial.close s) ∧
    SM_serial.get_frame_md (SM_serial.close s) f = .error .closedStore ∧
    SM_serial.get_dset_md (SM_serial.close s) f name = .error .closedStore ∧
    SM_serial.list_dsets (SM_serial.close s) f = .error .closedStore := by
  have hcl := close_openFlag s
  refine ⟨?_, ?_, ?_, ?_, ?_, ?_, ?_, ?_⟩
  · exact close_of_closed _ hcl
  · simp [SM_serial.loads, hcl]
  · simp [SM_serial.dumps, hcl]
  · simp [SM_serial.set_frame_md, hcl]
  · simp [SM_serial.update_dset_md, hcl]
  · simp [SM_serial.get_frame_md, hcl]
  · simp [SM_serial.get_dset_md, hcl]
  · simp [SM_serial.list_dsets, hcl]

/-- C4: a store opened with the read-only mode "r" rejects every
mutating operation with the read-only error, whatever the flags and
whether or not the targets exist, and leaves the container unchanged;
reading pre-existing data on the same store succeeds. -/
theorem read_only_mode_rejects_mutation (f : HNode) (frame : Nat) (name : String)
    (data : NDArray) (md : AttrMap) (ow : Bool) :
    SM_serial.dumps (SM_serial.openStore f (some "r")) frame name data md ow
      = (.error .readOnly, SM_serial.openStore f (some "r")) ∧
    SM_serial.set_frame_md (SM_serial.openStore f (some "r")) frame md ow
      = (.error .readOnly, SM_serial.openStore f (some "r")) ∧
    SM_serial.update_dset_md (SM_serial.openStore f (some "r")) frame name md ow
      = (.error .readOnly, SM_serial.openStore f (some "r")) ∧
    (∀ (d : NDArray) (da : AttrMap),
      hGetPath f (formatFrameName frame :: splitPath name) = .ok (.dset d da) →
      SM_serial.loads (SM_serial.openStore f (some "r")) frame name = .ok d) := by
  refine ⟨rfl, rfl, rfl, ?_⟩
  intro d da h
  simp [SM_serial.loads, SM_serial.openStore, h]

/-- Witness for C4 on a one-dataset container. -/
theorem read_only_mode_rejects_mutation_witness :
    SM_serial.loads
      (SM_serial.openStore
        (.group [] (.cons "time_0000000" (.group []
          (.cons "d" (.dset ⟨.int8, [1], [(1, 0)]⟩ []) .nil)) .nil)) (some "r")) 0 "d"
      = .ok ⟨.int8, [1], [(1, 0)]⟩ :=
  (read_only_mode_rejects_mutation
    (.group [] (.cons "time_0000000" (.group []
      (.cons "d" (.dset ⟨.int8, [1], [(1, 0)]⟩ []) .nil)) .nil)) 0 "d"
    ⟨.int8, [1], [(1, 0)]⟩ [] false).2.2.2 ⟨.int8, [1], [(1, 0)]⟩ [] (by rfl)

theorem require_singleton_cases (root : HNode) (p : String) (root1 : HNode)
    (h : requireGroupPath root [p] = .ok root1) :
    (root1 = root ∧ ∃ b ds, hGetPath root [p] = .ok (.group b ds)) ∨
    (∃ a cs, root = .group a cs ∧ cs.lookup p = none ∧
      root1 = .group a (cs.set p (.group [] .nil))) := by
  match root with
  | .dset _ _ => simp [requireGroupPath] at h
  | .group a cs =>
      match hl : cs.lookup p with
      | none =>
          rw [requireGroupPath_absent a cs p hl] at h
          simp only [Except.ok.injEq] at h
          exact Or.inr ⟨a, cs, rfl, hl, h.symm⟩
      | some (.group b ds) =>
          rw [requireGroupPath_exists a cs p b ds hl] at h
          simp only [Except.ok.injEq] at h
          refine Or.inl ⟨h.symm, b, ds, ?_⟩
          simp [hGetPath, hl]
      | some (.dset d da) =>
          rw [requireGroupPath_dset a cs p d da hl] at h
          simp at h

theorem objectSetMd_empty_attrs (n : HNode) (md : AttrMap) (ow : Bool)
    (h : n.attrs = []) : objectSetMd n md ow = .ok (n.withAttrs (attrsSetAll n.attrs md)) := by
  have : md.any (fun kv => (attrLookup n.attrs kv.1).isSome) = false := by
    rw [h]
    simp [attrLookup]
  simp [objectSetMd, this]


theorem requireGroupPath_error_structural : ∀ (path : List String) (root : HNode) (e : SMError),
    requireGroupPath root path = .error e → ∃ msg, e = .structural msg := by
  intro path
  induction path with
  | nil =>
      intro root e h
      match root with
      | .dset _ _ => simp [requireGroupPath] at h; exact ⟨_, h.symm⟩
      | .group a cs => simp [requireGroupPath] at h
  | cons seg rest ih =>
      intro root e h
      match root with
      | .dset _ _ => simp [requireGroupPath] at h; exact ⟨_, h.symm⟩
      | .group a cs =>
          simp only [requireGroupPath] at h
          match hc : requireGroupPath ((cs.lookup seg).getD (.group [] .nil)) rest with
          | .error e2 =>
              rw [hc] at h
              simp only [Except.error.injEq] at h
              subst h
              exact ih _ _ hc
          | .ok child2 => rw [hc] at h; simp at h

theorem set_frame_md_conflict_atomic (s : SMStore) (f : Nat) (md : AttrMap) (ow : Bool)
    (h : (SM_serial.set_frame_md s f md ow).1 = .error .conflict) :
    (SM_serial.set_frame_md s f md ow).2 = s := by
  obtain ⟨file, wflag, oflag⟩ := s
  by_cases ho : oflag = true
  case neg =>
    rw [Bool.not_eq_true] at ho
    subst ho
    simp [SM_serial.set_frame_md] at h
  subst ho
  by_cases hw : wflag = true
  case neg =>
    rw [Bool.not_eq_true] at hw
    subst hw
    simp [SM_serial.set_frame_md] at h
  subst hw
  simp only [SM_serial.set_frame_md, Bool.true_eq_false, if_false] at h ⊢
  rcases hr : requireGroupPath file [formatFrameName f] with e | root1
  · simp only [hr] at h
    obtain ⟨msg, hmsg⟩ := requireGroupPath_error_structural _ _ _ hr
    simp [hmsg] at h
  · simp only [hr] at h ⊢
    rcases require_singleton_cases file _ root1 hr with ⟨heq, b, ds, hget⟩ | ⟨a, cs, hf, hl, hr1⟩
    · subst heq
      simp only [hget] at h ⊢
      rcases hmd : objectSetMd (.group b ds) md ow with e2 | node2
      · simp only [hmd] at h ⊢
      · simp only [hmd] at h
        simp at h
    · have hget1 : hGetPath root1 [formatFrameName f] = .ok (.group [] .nil) := by
        rw [hr1]
        simp [hGetPath, HChildren.lookup_set_self]
      simp only [hget1] at h
      rw [objectSetMd_empty_attrs (.group [] .nil) md ow rfl] at h
      simp at h

theorem update_dset_md_conflict_atomic (s : SMStore) (f : Nat) (name : String)
    (md : AttrMap) (ow : Bool)
    (h : (SM_serial.update_dset_md s f name md ow).1 = .error .conflict) :
    (SM_serial.update_dset_md s f name md ow).2 = s := by
  obtain ⟨file, wflag, oflag⟩ := s
  by_cases ho : oflag = true
  case neg =>
    rw [Bool.not_eq_true] at ho
    subst ho
    simp [SM_serial.update_dset_md] at h
  subst ho
  by_cases hw : wflag = true
  case neg =>
    rw [Bool.not_eq_true] at hw
    subst hw
    simp [SM_serial.update_dset_md] at h
  subst hw
  simp only [SM_serial.update_dset_md, Bool.true_eq_false, if_false] at h ⊢
  rcases hr : requireGroupPath file [formatFrameName f] with e | root1
  · simp only [hr] at h
    obtain ⟨msg, hmsg⟩ := requireGroupPath_error_structural _ _ _ hr
    simp [hmsg] at h
  · simp only [hr] at h ⊢
    rcases require_singleton_cases file _ root1 hr with ⟨heq, b, ds, hget⟩ | ⟨a, cs, hf, hl, hr1⟩
    · rw [heq] at h ⊢
      rcases hget2 : hGetPath file (formatFrameName f :: splitPath name) with e2 | node
      · simp only [hget2] at h ⊢
      · simp only [hget2] at h ⊢
        rcases hmd : objectSetMd node md ow with e3 | node2
        · simp only [hmd] at h ⊢
        · simp only [hmd] at h
          simp at h
    · match hsp : splitPath name with
      | [] => exact absurd hsp (splitPath_ne_nil name)
      | seg1 :: rest1 =>
          have hget1 : hGetPath root1 (formatFrameName f :: seg1 :: rest1)
              = .error (.notFound seg1) := by
            rw [hr1]
            simp [hGetPath, HChildren.lookup_set_self, HChildren.lookup]
          rw [hsp] at h
          simp only [hget1] at h
          simp at h

/-- A fresh store over an empty container, opened with the default mode. -/
def emptyStore : SMStore := SM_serial.openStore (.group [] .nil) none

/-- C2: an attribute-set operation with overwrite false aborts with the
conflict error as soon as one incoming key exists on the target node and
then writes nothing (set_frame_md and update_dset_md leave the whole
store unchanged on that path); otherwise, and always when overwrite is
true, every incoming key is written, replacing existing values.  The
concrete scenario of the claim: after setting key "a" to 1 on a frame, a
second set of "a" to 2 without overwrite raises the conflict and leaves
the value 1; with overwrite it leaves the value 2. -/
theorem metadata_set_all_or_nothing :
    (∀ (n : HNode) (md : AttrMap) (ow : Bool),
      (ow = false → md.any (fun kv => (attrLookup n.attrs kv.1).isSome) = true →
        objectSetMd n md ow = .error .conflict) ∧
      (ow = true ∨ md.any (fun kv => (attrLookup n.attrs kv.1).isSome) = false →
        objectSetMd n md ow = .ok (n.withAttrs (attrsSetAll n.attrs md)))) ∧
    (∀ (n : HNode) (md : AttrMap) (k : String) (v : AttrVal),
      (md.map Prod.fst).Nodup → (k, v) ∈ md →
      attrLookup (attrsSetAll n.attrs md) k = some v) ∧
    (∀ (s : SMStore) (f : Nat) (md : AttrMap) (ow : Bool),
      (SM_serial.set_frame_md s f md ow).1 = .error .conflict →
      (SM_serial.set_frame_md s f md ow).2 = s) ∧
    (∀ (s : SMStore) (f : Nat) (name : String) (md : AttrMap) (ow : Bool),
      (SM_serial.update_dset_md s f name md ow).1 = .error .conflict →
      (SM_serial.update_dset_md s f name md ow).2 = s) ∧
    ((SM_serial.set_frame_md (SM_serial.set_frame_md emptyStore 0 [("a", 1)] false).2
        0 [("a", 2)] false).1 = .error .conflict ∧
      SM_serial.get_frame_md
        (SM_serial.set_frame_md (SM_serial.set_frame_md emptyStore 0 [("a", 1)] false).2
          0 [("a", 2)] false).2 0 = .ok [("a", 1)] ∧
      SM_serial.get_frame_md
        (SM_serial.set_frame_md (SM_serial.set_frame_md emptyStore 0 [("a", 1)] false).2
          0 [("a", 2)] true).2 0 = .ok [("a", 2)]) := by
  refine ⟨?_, ?_, set_frame_md_conflict_atomic, update_dset_md_conflict_atomic, ?_, ?_, ?_⟩
  · intro n md ow
    constructor
    · intro h1 h2
      simp [objectSetMd, h1, h2]
    · intro h
      rcases h with h | h
      · simp [objectSetMd, h]
      · simp [objectSetMd, h]
  · intro n md k v hnd hm
    exact attrsSetAll_lookup_mem n.attrs md k v hnd hm
  · rfl
  · rfl
  · rfl

/-- Witness for C2: a concrete conflicting update. -/
theorem metadata_set_all_or_nothing_witness :
    objectSetMd (.group [("a", 1)] .nil) [("a", 2)] false = .error .conflict :=
  (metadata_set_all_or_nothing.1 (.group [("a", 1)] .nil) [("a", 2)] false).1 rfl (by rfl)

theorem withAttrs_attrs (n : HNode) : n.withAttrs n.attrs = n := by
  match n with
  | .dset _ _ => rfl
  | .group _ _ => rfl

theorem dumpsMeta_get (root : HNode) (path : List String) (md : AttrMap) (n : HNode)
    (h : hGetPath root path = .ok n) :
    hGetPath (SM_serial.dumpsMeta root path md) path
      = .ok (n.withAttrs (attrsSetAll n.attrs md)) := by
  by_cases hmd : md = []
  · subst hmd
    have : attrsSetAll n.attrs [] = n.attrs := rfl
    rw [this, withAttrs_attrs]
    simpa [SM_serial.dumpsMeta] using h
  · have hne : md.isEmpty = false := by
      simp [List.isEmpty_iff, hmd]
    simp only [SM_serial.dumpsMeta, hne, Bool.false_eq_true, if_false]
    exact hGetPath_modifyAtPath _ path root n h

theorem loads_of_dset (s : SMStore) (f : Nat) (name : String) (d : NDArray) (da : AttrMap)
    (ho : s.openFlag = true)
    (h : hGetPath s.file (formatFrameName f :: splitPath name) = .ok (.dset d da)) :
    SM_serial.loads s f name = .ok d := by
  simp [SM_serial.loads, ho, h]

theorem frame_exists_require (file : HNode) (fn : String) (segs : List String) (node : HNode)
    (h : hGetPath file (fn :: segs) = .ok node) (hne : segs ≠ []) :
    requireGroupPath file [fn] = .ok file := by
  obtain ⟨a, cs, c, hfile, hl, hrest⟩ := hGetPath_cons_ok file fn segs node h
  obtain ⟨b, ds, hc⟩ := hGetPath_ok_group_of_ne_nil c segs node hrest hne
  subst hc
  rw [hfile]
  exact requireGroupPath_exists a cs fn b ds hl

theorem dumps_existing_noop (s : SMStore) (f : Nat) (name : String) (data : NDArray)
    (md : AttrMap) (old : NDArray) (oa : AttrMap)
    (ho : s.openFlag = true) (hw : s.writeFlag = true)
    (h : hGetPath s.file (formatFrameName f :: splitPath name) = .ok (.dset old oa)) :
    SM_serial.dumps s f name data md false =
      (.ok (), { s with file :=
        SM_serial.dumpsMeta s.file (formatFrameName f :: splitPath name) md }) := by
  obtain ⟨file, wflag, oflag⟩ := s
  simp only at ho hw h
  subst ho
  subst hw
  have hreq := frame_exists_require file (formatFrameName f) (splitPath name) _ h
    (splitPath_ne_nil name)
  simp [SM_serial.dumps, hreq, h]

theorem dumps_existing_overwrite (s : SMStore) (f : Nat) (name : String) (data : NDArray)
    (md : AttrMap) (old : NDArray) (oa : AttrMap)
    (ho : s.openFlag = true) (hw : s.writeFlag = true)
    (h : hGetPath s.file (formatFrameName f :: splitPath name) = .ok (.dset old oa)) :
    ∃ root2,
      createDatasetPath (deletePath s.file (formatFrameName f :: splitPath name))
        (formatFrameName f :: splitPath name) data = .ok root2 ∧
      SM_serial.dumps s f name data md true =
        (.ok (), { s with file :=
          SM_serial.dumpsMeta root2 (formatFrameName f :: splitPath name) md }) := by
  obtain ⟨file, wflag, oflag⟩ := s
  simp only at ho hw h
  subst ho
  subst hw
  have hreq := frame_exists_require file (formatFrameName f) (splitPath name) _ h
    (splitPath_ne_nil name)
  obtain ⟨root2, hc⟩ := delete_then_create data (formatFrameName f :: splitPath name)
    file _ h (by simp)
  refine ⟨root2, hc, ?_⟩
  simp [SM_serial.dumps, hreq, h, hc]

/-- C3: when a dataset already exists at the name under the frame group,
a write with overwrite true deletes and recreates it with the new data
(and its dtype, whatever the old one was), while a write with overwrite
false raises no error and leaves the array contents exactly as they
were: a subsequent read returns the old array. -/
theorem write_existing_dataset_policy (s : SMStore) (f : Nat) (name : String)
    (data : NDArray) (md : AttrMap) (old : NDArray) (oa : AttrMap)
    (ho : s.openFlag = true) (hw : s.writeFlag = true)
    (h : hGetPath s.file (formatFrameName f :: splitPath name) = .ok (.dset old oa)) :
    ((SM_serial.dumps s f name data md true).1 = .ok () ∧
      SM_serial.loads (SM_serial.dumps s f name data md true).2 f name = .ok data) ∧
    ((SM_serial.dumps s f name data md false).1 = .ok () ∧
      SM_serial.loads (SM_serial.dumps s f name data md false).2 f name = .ok old) := by
  constructor
  · obtain ⟨root2, hc, heval⟩ := dumps_existing_overwrite s f name data md old oa ho hw h
    rw [heval]
    refine ⟨rfl, ?_⟩
    have hget2 := createDatasetPath_get data _ _ _ hc
    have hget3 := dumpsMeta_get root2 _ md _ hget2
    exact loads_of_dset _ f name data _ ho hget3
  · rw [dumps_existing_noop s f name data md old oa ho hw h]
    refine ⟨rfl, ?_⟩
    have hget3 := dumpsMeta_get s.file _ md _ h
    exact loads_of_dset _ f name old _ ho hget3

/-- Witness for C3 on a one-dataset container: overwriting replaces the
int8 array by a float64 one, not overwriting keeps the old array. -/
theorem write_existing_dataset_policy_witness :
    ((SM_serial.dumps ⟨.group [] (.cons "time_0000000" (.group []
        (.cons "d" (.dset ⟨.int8, [1], [(1, 0)]⟩ []) .nil)) .nil), true, true⟩
        0 "d" ⟨.float64, [1], [(2, 0)]⟩ [] true).1 = .ok () ∧
      SM_serial.loads (SM_serial.dumps ⟨.group [] (.cons "time_0000000" (.group []
        (.cons "d" (.dset ⟨.int8, [1], [(1, 0)]⟩ []) .nil)) .nil), true, true⟩
        0 "d" ⟨.float64, [1], [(2, 0)]⟩ [] true).2 0 "d" = .ok ⟨.float64, [1], [(2, 0)]⟩) ∧
    ((SM_serial.dumps ⟨.group [] (.cons "time_0000000" (.group []
        (.cons "d" (.dset ⟨.int8, [1], [(1, 0)]⟩ []) .nil)) .nil), true, true⟩
        0 "d" ⟨.float64, [1], [(2, 0)]⟩ [] false).1 = .ok () ∧
      SM_serial.loads (SM_serial.dumps ⟨.group [] (.cons "time_0000000" (.group []
        (.cons "d" (.dset ⟨.int8, [1], [(1, 0)]⟩ []) .nil)) .nil), true, true⟩
        0 "d" ⟨.float64, [1], [(2, 0)]⟩ [] false).2 0 "d" = .ok ⟨.int8, [1], [(1, 0)]⟩) :=
  write_existing_dataset_policy
    ⟨.group [] (.cons "time_0000000" (.group []
      (.cons "d" (.dset ⟨.int8, [1], [(1, 0)]⟩ []) .nil)) .nil), true, true⟩
    0 "d" ⟨.float64, [1], [(2, 0)]⟩ [] ⟨.int8, [1], [(1, 0)]⟩ [] rfl rfl (by rfl)

/-- C10: with a non-empty metadata map, the metadata loop of the write
operation sets every supplied key on the target dataset unconditionally
and never raises a conflict — even on the silent no-op path where the
dataset already exists and overwrite is false, the old array stays but
its attribute map is mutated by the supplied pairs. -/
theorem write_metadata_unconditional (s : SMStore) (f : Nat) (name : String)
    (data : NDArray) (md : AttrMap) (old : NDArray) (oa : AttrMap)
    (ho : s.openFlag = true) (hw : s.writeFlag = true) (_hmd : md ≠ [])
    (h : hGetPath s.file (formatFrameName f :: splitPath name) = .ok (.dset old oa)) :
    (SM_serial.dumps s f name data md false).1 = .ok () ∧
    hGetPath (SM_serial.dumps s f name data md false).2.file
        (formatFrameName f :: splitPath name)
      = .ok (.dset old (attrsSetAll oa md)) := by
  rw [dumps_existing_noop s f name data md old oa ho hw h]
  exact ⟨rfl, dumpsMeta_get s.file _ md _ h⟩

/-- Witness for C10: a conflicting key is replaced on the existing
dataset with no error while the array itself keeps its old contents. -/
theorem write_metadata_unconditional_witness :
    (SM_serial.dumps ⟨.group [] (.cons "time_0000000" (.group []
        (.cons "d" (.dset ⟨.int8, [1], [(1, 0)]⟩ [("m", 9)]) .nil)) .nil), true, true⟩
        0 "d" ⟨.float64, [1], [(2, 0)]⟩ [("m", 3)] false).1 = .ok () ∧
    hGetPath (SM_serial.dumps ⟨.group [] (.cons "time_0000000" (.group []
        (.cons "d" (.dset ⟨.int8, [1], [(1, 0)]⟩ [("m", 9)]) .nil)) .nil), true, true⟩
        0 "d" ⟨.float64, [1], [(2, 0)]⟩ [("m", 3)] false).2.file
        (formatFrameName 0 :: splitPath "d")
      = .ok (.dset ⟨.int8, [1], [(1, 0)]⟩ (attrsSetAll [("m", 9)] [("m", 3)])) :=
  write_metadata_unconditional
    ⟨.group [] (.cons "time_0000000" (.group []
      (.cons "d" (.dset ⟨.int8, [1], [(1, 0)]⟩ [("m", 9)]) .nil)) .nil), true, true⟩
    0 "d" ⟨.float64, [1], [(2, 0)]⟩ [("m", 3)] ⟨.int8, [1], [(1, 0)]⟩ [("m", 9)]
    rfl rfl (by simp) (by rfl)

/-- C1 counterexample: on an open writable store whose frame 0 already
holds a dataset "d" with an int8 array, writing a float64 array to the
same name succeeds silently (first write wins) and reading the name
back returns the old int8 array rather than the written one, so
write-then-read does not return the written array on every open
writable store. -/
theorem roundtrip_counterexample :
    (SM_serial.dumps ⟨.group [] (.cons "time_0000000" (.group []
        (.cons "d" (.dset ⟨.int8, [1], [(1, 0)]⟩ []) .nil)) .nil), true, true⟩
        0 "d" ⟨.float64, [1], [(2, 0)]⟩ [] false).1 = .ok () ∧
    SM_serial.loads (SM_serial.dumps ⟨.group [] (.cons "time_0000000" (.group []
        (.cons "d" (.dset ⟨.int8, [1], [(1, 0)]⟩ []) .nil)) .nil), true, true⟩
        0 "d" ⟨.float64, [1], [(2, 0)]⟩ [] false).2 0 "d"
      = .ok ⟨.int8, [1], [(1, 0)]⟩ ∧
    (⟨.int8, [1], [(1, 0)]⟩ : NDArray) ≠ ⟨.float64, [1], [(2, 0)]⟩ :=
  ⟨rfl, rfl, by decide⟩

/-- C1 as amended: for every supported dtype, frame index, dataset name
and array value, writing on an open writable store and reading back
returns an array equal to the written one in dtype, shape and element
values, provided nothing already exists at the name under the frame
group (so the write actually creates the dataset rather than being the
silent first-write-wins no-op). -/
theorem roundtrip_of_absent (s : SMStore) (f : Nat) (name : String) (data : NDArray)
    (md : AttrMap) (k : String)
    (ho : s.openFlag = true) (hw : s.writeFlag = true)
    (habs : hGetPath s.file (formatFrameName f :: splitPath name) = .error (.notFound k))
    (hok : (SM_serial.dumps s f name data md false).1 = .ok ()) :
    SM_serial.loads (SM_serial.dumps s f name data md false).2 f name = .ok data := by
  obtain ⟨file, wflag, oflag⟩ := s
  simp only at ho hw habs hok ⊢
  subst ho
  subst hw
  rcases hr : requireGroupPath file [formatFrameName f] with e | root1
  · simp [SM_serial.dumps, hr] at hok
  · have herr : ∃ k2, hGetPath root1 (formatFrameName f :: splitPath name)
        = .error (.notFound k2) := by
      rcases require_singleton_cases file _ root1 hr with ⟨heq, b, ds, hget⟩ | ⟨a, cs, hf, hl, hr1⟩
      · exact ⟨k, heq ▸ habs⟩
      · match hsp : splitPath name with
        | [] => exact absurd hsp (splitPath_ne_nil name)
        | seg1 :: rest1 =>
            refine ⟨seg1, ?_⟩
            rw [hr1]
            simp [hGetPath, HChildren.lookup_set_self, HChildren.lookup]
    obtain ⟨k2, herr⟩ := herr
    rcases hc : createDatasetPath root1 (formatFrameName f :: splitPath name) data with e2 | root2
    · simp [SM_serial.dumps, hr, herr, hc] at hok
    · have heval : SM_serial.dumps ⟨file, true, true⟩ f name data md false
          = (.ok (), ⟨SM_serial.dumpsMeta root2 (formatFrameName f :: splitPath name) md,
              true, true⟩) := by
        simp [SM_serial.dumps, hr, herr, hc]
      rw [heval]
      have hget2 := createDatasetPath_get data _ _ _ hc
      have hget3 := dumpsMeta_get root2 _ md _ hget2
      exact loads_of_dset _ f name data _ rfl hget3

/-- Witness for C1 as amended: a nested complex128 write into an empty
container reads back unchanged. -/
theorem roundtrip_of_absent_witness :
    SM_serial.loads (SM_serial.dumps emptyStore 3 "b/c"
        ⟨.complex128, [2], [(1, 2), (3, 4)]⟩ [("m", 1)] false).2 3 "b/c"
      = .ok ⟨.complex128, [2], [(1, 2), (3, 4)]⟩ :=
  roundtrip_of_absent emptyStore 3 "b/c" ⟨.complex128, [2], [(1, 2), (3, 4)]⟩ [("m", 1)]
    "time_0000003" rfl rfl (by rfl) (by rfl)

/-- C8 counterexample: on an open writable store over an empty
container, update_dset_md on a never-written dataset does raise the
not-found error, yet the container is not left unchanged on that error
path: the frame group is created as a side effect. -/
theorem update_requires_existence_counterexample :
    (SM_serial.update_dset_md ⟨.group [] .nil, true, true⟩ 0 "d" [("a", 1)] false).1
      = .error (.notFound "d") ∧
    (SM_serial.update_dset_md ⟨.group [] .nil, true, true⟩ 0 "d" [("a", 1)] false).2.file
      = .group [] (.cons "time_0000000" (.group [] .nil) .nil) ∧
    (.group [] (.cons "time_0000000" (.group [] .nil) .nil) : HNode)
      ≠ .group [] .nil :=
  ⟨rfl, rfl, by intro h; injection h with h1 h2; exact HChildren.noConfusion h2⟩

/-- C8 as amended: update_dset_md on a dataset that was never written
raises the not-found error and never creates a dataset (the name still
resolves to nothing afterwards); but the frame group is resolved with
get-or-create semantics, so the container is unchanged on this error
path only when the frame group already existed — otherwise the store is
left with the freshly created empty frame group. -/
theorem update_requires_existence_amended (s : SMStore) (f : Nat) (name : String)
    (md : AttrMap) (ow : Bool) (root1 : HNode) (k : String)
    (ho : s.openFlag = true) (hw : s.writeFlag = true)
    (hreq : requireGroupPath s.file [formatFrameName f] = .ok root1)
    (habs : hGetPath root1 (formatFrameName f :: splitPath name) = .error (.notFound k)) :
    (SM_serial.update_dset_md s f name md ow).1 = .error (.notFound k) ∧
    (SM_serial.update_dset_md s f name md ow).2 = { s with file := root1 } ∧
    hGetPath (SM_serial.update_dset_md s f name md ow).2.file
      (formatFrameName f :: splitPath name) = .error (.notFound k) ∧
    (∀ (b : AttrMap) (ds : HChildren),
      hGetPath s.file [formatFrameName f] = .ok (.group b ds) → root1 = s.file) := by
  obtain ⟨file, wflag, oflag⟩ := s
  simp only at ho hw hreq habs ⊢
  subst ho
  subst hw
  have heval : SM_serial.update_dset_md ⟨file, true, true⟩ f name md ow
      = (.error (.notFound k), ⟨root1, true, true⟩) := by
    simp [SM_serial.update_dset_md, hreq, habs]
  refine ⟨by rw [heval], by rw [heval], by rw [heval]; exact habs, ?_⟩
  intro b ds hframe
  obtain ⟨a, cs, c, hfile, hl, hrest⟩ := hGetPath_cons_ok file (formatFrameName f) [] _ hframe
  simp only [hGetPath, Except.ok.injEq] at hrest
  subst hrest
  rw [hfile] at hreq ⊢
  rw [requireGroupPath_exists a cs (formatFrameName f) b ds hl] at hreq
  simp only [Except.ok.injEq] at hreq
  exact hreq.symm

/-- Witness for C8 as amended, on the empty container. -/
theorem update_requires_existence_amended_witness :
    (SM_serial.update_dset_md ⟨.group [] .nil, true, true⟩ 1 "d" [("a", 1)] false).1
      = .error (.notFound "d") ∧
    (SM_serial.update_dset_md ⟨.group [] .nil, true, true⟩ 1 "d" [("a", 1)] false).2
      = { (⟨.group [] .nil, true, true⟩ : SMStore) with
          file := .group [] (.cons "time_0000001" (.group [] .nil) .nil) } ∧
    hGetPath (SM_serial.update_dset_md ⟨.group [] .nil, true, true⟩ 1 "d" [("a", 1)] false).2.file
      (formatFrameName 1 :: splitPath "d") = .error (.notFound "d") ∧
    (∀ (b : AttrMap) (ds : HChildren),
      hGetPath (.group [] .nil) [formatFrameName 1] = .ok (.group b ds) →
      (.group [] (.cons "time_0000001" (.group [] .nil) .nil)) = (.group [] .nil : HNode)) :=
  update_requires_existence_amended ⟨.group [] .nil, true, true⟩ 1 "d" [("a", 1)] false
    (.group [] (.cons "time_0000001" (.group [] .nil) .nil)) "d" rfl rfl (by rfl) (by rfl)

/-- C7 counterexample: when the dataset name resolves to a group, the
metadata operations do not fail with a structural error: get_dset_md
returns the attribute map of the group and update_dset_md succeeds,
silently operating on the group. -/
theorem dataset_kind_check_counterexample :
    SM_serial.get_dset_md ⟨.group [] (.cons "time_0000000" (.group []
        (.cons "g" (.group [("x", 5)] .nil) .nil)) .nil), true, true⟩ 0 "g"
      = .ok [("x", 5)] ∧
    (SM_serial.update_dset_md ⟨.group [] (.cons "time_0000000" (.group []
        (.cons "g" (.group [("x", 5)] .nil) .nil)) .nil), true, true⟩ 0 "g"
        [("y", 7)] false).1 = .ok () :=
  ⟨rfl, rfl⟩

/-- C7 as amended: when a name expected to denote a dataset resolves to
a group inside an existing frame group, the read operation does fail
(the trailing full slice of a group raises the structural kind error),
but get_dset_md silently returns the attribute map of the group and
update_dset_md silently applies the metadata update to the group — no
structural error and no kind check on these two paths. -/
theorem dataset_kind_check_amended (s : SMStore) (f : Nat) (name : String)
    (ga : AttrMap) (gcs : HChildren)
    (ho : s.openFlag = true)
    (hg : hGetPath s.file (formatFrameName f :: splitPath name) = .ok (.group ga gcs)) :
    SM_serial.loads s f name = .error (.structural "slicing a group") ∧
    SM_serial.get_dset_md s f name = .ok ga ∧
    (∀ md : AttrMap, s.writeFlag = true →
      (SM_serial.update_dset_md s f name md true).1 = .ok ()) := by
  obtain ⟨a, cs, c, hfile, hl, hrest⟩ :=
    hGetPath_cons_ok s.file (formatFrameName f) (splitPath name) _ hg
  obtain ⟨b, ds, hc⟩ := hGetPath_ok_group_of_ne_nil c (splitPath name) _ hrest
    (splitPath_ne_nil name)
  subst hc
  refine ⟨by simp [SM_serial.loads, ho, hg], ?_, ?_⟩
  · have hopen : SM_serial.openGroupAt s.file [formatFrameName f] = .ok (.group b ds) := by
      rw [hfile]
      simp [SM_serial.openGroupAt, hGetPath, hl]
    simp [SM_serial.get_dset_md, ho, hopen, hrest, HNode.attrs]
  · intro md hw
    obtain ⟨file, wflag, oflag⟩ := s
    simp only at ho hw hg hfile ⊢
    subst ho
    subst hw
    have hreq := frame_exists_require file (formatFrameName f) (splitPath name) _ hg
      (splitPath_ne_nil name)
    have hmd : objectSetMd (.group ga gcs) md true
        = .ok ((HNode.group ga gcs).withAttrs (attrsSetAll (HNode.group ga gcs).attrs md)) := by
      simp [objectSetMd]
    simp [SM_serial.update_dset_md, hreq, hg, hmd]

/-- Witness for C7 as amended, on a container whose frame 0 has a group
"g" where a dataset is expected. -/
theorem dataset_kind_check_amended_witness :
    SM_serial.loads ⟨.group [] (.cons "time_0000000" (.group []
        (.cons "g" (.group [("x", 5)] .nil) .nil)) .nil), true, true⟩ 0 "g"
      = .error (.structural "slicing a group") ∧
    SM_serial.get_dset_md ⟨.group [] (.cons "time_0000000" (.group []
        (.cons "g" (.group [("x", 5)] .nil) .nil)) .nil), true, true⟩ 0 "g"
      = .ok [("x", 5)] ∧
    (∀ md : AttrMap,
      (⟨.group [] (.cons "time_0000000" (.group []
        (.cons "g" (.group [("x", 5)] .nil) .nil)) .nil), true, true⟩ : SMStore).writeFlag = true →
      (SM_serial.update_dset_md ⟨.group [] (.cons "time_0000000" (.group []
        (.cons "g" (.group [("x", 5)] .nil) .nil)) .nil), true, true⟩ 0 "g" md true).1
        = .ok ()) :=
  dataset_kind_check_amended ⟨.group [] (.cons "time_0000000" (.group []
    (.cons "g" (.group [("x", 5)] .nil) .nil)) .nil), true, true⟩ 0 "g" [("x", 5)] .nil
    rfl (by rfl)

/-- Well-formedness of container children as hdf5 guarantees it: sibling
names are unique, recursively. -/
def wfC : HChildren → Bool
  | .nil => true
  | .cons k (.dset _ _) r => !(r.keys.contains k) && wfC r
  | .cons k (.group _ cs) r => !(r.keys.contains k) && wfC cs && wfC r

/-- The relative path string of a segment list, slash-separated with a
leading slash, as _subgroup_recurse builds it. -/
def pathJoin : List String → String
  | [] => ""
  | s :: r => "/" ++ s ++ pathJoin r

theorem pathJoin_single (base k : String) : base ++ pathJoin [k] = base ++ "/" ++ k := by
  simp [pathJoin, String.append_assoc, String.append_empty]

theorem pathJoin_cons_append (base k : String) (segs : List String) :
    base ++ pathJoin (k :: segs) = (base ++ "/" ++ k) ++ pathJoin segs := by
  simp [pathJoin, String.append_assoc]

theorem subgroupRecurseC_mem_iff (a : AttrMap) (p : String) :
    ∀ (cs : HChildren) (base : String), wfC cs = true →
      (p ∈ subgroupRecurseC cs base ↔
        ∃ segs d da, hGetPath (.group a cs) segs = .ok (.dset d da) ∧
          p = base ++ pathJoin segs) := by
  intro cs base
  induction cs, base using subgroupRecurseC.induct with
  | case1 base =>
      intro _
      constructor
      · intro hp
        simp [subgroupRecurseC] at hp
      · rintro ⟨segs, d, da, hg, hpp⟩
        match segs with
        | [] => simp [hGetPath] at hg
        | seg :: rest2 => simp [hGetPath, HChildren.lookup] at hg
  | case2 k d0 a0 rest basePath ih =>
      intro hwf
      simp only [wfC, Bool.and_eq_true, Bool.not_eq_true'] at hwf
      have hknot : k ∉ rest.keys := by simpa using hwf.1
      have ihr := ih hwf.2
      constructor
      · intro hp
        simp only [subgroupRecurseC] at hp
        rcases List.mem_cons.mp hp with hp1 | hp2
        · refine ⟨[k], d0, a0, ?_, ?_⟩
          · simp [hGetPath, HChildren.lookup]
          · rw [pathJoin_single]
            exact hp1
        · obtain ⟨segs, d, da, hg, hpp⟩ := ihr.mp hp2
          match segs with
          | [] => simp [hGetPath] at hg
          | seg :: rest2 =>
              obtain ⟨a2, cs2, c, heq, hl, hrest2⟩ := hGetPath_cons_ok _ _ _ _ hg
              injection heq with h1 h2
              subst h1
              subst h2
              have hne : ¬ k = seg := fun hkeq =>
                hknot (hkeq ▸ HChildren.lookup_mem_keys _ seg c hl)
              refine ⟨seg :: rest2, d, da, ?_, hpp⟩
              simp only [hGetPath, HChildren.lookup, hne, if_false, hl]
              exact hrest2
      · rintro ⟨segs, d, da, hg, hpp⟩
        match segs with
        | [] => simp [hGetPath] at hg
        | seg :: rest2 =>
            by_cases hk : k = seg
            · subst hk
              simp only [hGetPath, HChildren.lookup, if_pos rfl] at hg
              match rest2 with
              | [] =>
                  simp only [subgroupRecurseC]
                  rw [hpp, pathJoin_single]
                  exact List.mem_cons_self _ _
              | seg2 :: rest3 => simp [hGetPath] at hg
            · have hg2 : hGetPath (.group a rest) (seg :: rest2) = .ok (.dset d da) := by
                simpa only [hGetPath, HChildren.lookup, hk, if_false] using hg
              simp only [subgroupRecurseC]
              exact List.mem_cons.mpr (Or.inr (ihr.mpr ⟨seg :: rest2, d, da, hg2, hpp⟩))
  | case3 k ga gcs rest basePath ih1 ih2 =>
      intro hwf
      simp only [wfC, Bool.and_eq_true, Bool.not_eq_true'] at hwf
      have hknot : k ∉ rest.keys := by simpa using hwf.1.1
      have ihg := ih1 hwf.1.2
      have ihr := ih2 hwf.2
      constructor
      · intro hp
        simp only [subgroupRecurseC] at hp
        rcases List.mem_append.mp hp with hp1 | hp2
        · obtain ⟨segs, d, da, hg, hpp⟩ := ihg.mp hp1
          match segs with
          | [] => simp [hGetPath] at hg
          | seg :: rest2 =>
              refine ⟨k :: seg :: rest2, d, da, ?_, ?_⟩
              · have hlk : (HChildren.cons k (.group ga gcs) rest).lookup k
                    = some (.group ga gcs) := by simp [HChildren.lookup]
                simp only [hGetPath, hlk]
                exact hg
              · rw [pathJoin_cons_append]
                exact hpp
        · obtain ⟨segs, d, da, hg, hpp⟩ := ihr.mp hp2
          match segs with
          | [] => simp [hGetPath] at hg
          | seg :: rest2 =>
              obtain ⟨a2, cs2, c, heq, hl, hrest2⟩ := hGetPath_cons_ok _ _ _ _ hg
              injection heq with h1 h2
              subst h1
              subst h2
              have hne : ¬ k = seg := fun hkeq =>
                hknot (hkeq ▸ HChildren.lookup_mem_keys _ seg c hl)
              refine ⟨seg :: rest2, d, da, ?_, hpp⟩
              simp only [hGetPath, HChildren.lookup, hne, if_false, hl]
              exact hrest2
      · rintro ⟨segs, d, da, hg, hpp⟩
        match segs with
        | [] => simp [hGetPath] at hg
        | seg :: rest2 =>
            by_cases hk : k = seg
            · subst hk
              simp only [hGetPath, HChildren.lookup, if_pos rfl] at hg
              match rest2 with
              | [] => simp [hGetPath] at hg
              | seg2 :: rest3 =>
                  have hg2 : hGetPath (.group a gcs) (seg2 :: rest3)
                      = .ok (.dset d da) := hg
                  simp only [subgroupRecurseC]
                  refine List.mem_append.mpr (Or.inl
                    (ihg.mpr ⟨seg2 :: rest3, d, da, hg2, ?_⟩))
                  rw [pathJoin_cons_append] at hpp
                  exact hpp
            · have hg2 : hGetPath (.group a rest) (seg :: rest2) = .ok (.dset d da) := by
                simpa only [hGetPath, HChildren.lookup, hk, if_false] using hg
              simp only [subgroupRecurseC]
              exact List.mem_append.mpr (Or.inr (ihr.mpr ⟨seg :: rest2, d, da, hg2, hpp⟩))

/-- C9: list_dsets walks the frame group recursively and returns exactly
the relative paths of the leaf datasets below it — a path is in the
result precisely when it is the slash-joined relative path of a dataset,
so no groups are listed (for well-formed containers, whose sibling names
are unique as hdf5 guarantees).  On the concrete scenario of the claim,
after writing datasets "a" and nested "b/c" to frame 0, the returned
sequence has exactly the elements "/a" and "/b/c". -/
theorem list_datasets_exact (s : SMStore) (f : Nat) (b : AttrMap) (ds : HChildren)
    (p : String)
    (ho : s.openFlag = true)
    (hframe : hGetPath s.file [formatFrameName f] = .ok (.group b ds))
    (hwf : wfC ds = true) :
    SM_serial.list_dsets s f = .ok (subgroupRecurseC ds "") ∧
    (p ∈ subgroupRecurseC ds "" ↔
      ∃ segs d da, hGetPath (.group b ds) segs = .ok (.dset d da) ∧ p = pathJoin segs) ∧
    SM_serial.list_dsets
      (SM_serial.dumps (SM_serial.dumps emptyStore 0 "a" ⟨.int8, [1], [(1, 0)]⟩ [] false).2
        0 "b/c" ⟨.int8, [1], [(2, 0)]⟩ [] false).2 0 = .ok ["/a", "/b/c"] ∧
    (∀ q : String, q ∈ ["/a", "/b/c"] ↔ (q = "/a" ∨ q = "/b/c")) := by
  have hopen : SM_serial.openGroupAt s.file [formatFrameName f] = .ok (.group b ds) := by
    simp [SM_serial.openGroupAt, hframe]
  refine ⟨?_, ?_, by rfl, by simp⟩
  · simp [SM_serial.list_dsets, ho, hopen, subgroupRecurse]
  · exact subgroupRecurseC_mem_iff b p ds "" hwf

/-- Witness for C9 on a container whose frame 0 holds one dataset "a". -/
theorem list_datasets_exact_witness :
    SM_serial.list_dsets ⟨.group [] (.cons "time_0000000" (.group []
      (.cons "a" (.dset ⟨.int8, [1], [(1, 0)]⟩ []) .nil)) .nil), true, true⟩ 0
      = .ok (subgroupRecurseC (.cons "a" (.dset ⟨.int8, [1], [(1, 0)]⟩ []) .nil) "") ∧
    ("/a" ∈ subgroupRecurseC (.cons "a" (.dset ⟨.int8, [1], [(1, 0)]⟩ []) .nil) "" ↔
      ∃ segs d da,
        hGetPath (.group [] (.cons "a" (.dset ⟨.int8, [1], [(1, 0)]⟩ []) .nil)) segs
          = .ok (.dset d da) ∧ "/a" = pathJoin segs) ∧
    SM_serial.list_dsets
      (SM_serial.dumps (SM_serial.dumps emptyStore 0 "a" ⟨.int8, [1], [(1, 0)]⟩ [] false).2
        0 "b/c" ⟨.int8, [1], [(2, 0)]⟩ [] false).2 0 = .ok ["/a", "/b/c"] ∧
    (∀ q : String, q ∈ ["/a", "/b/c"] ↔ (q = "/a" ∨ q = "/b/c")) :=
  list_datasets_exact ⟨.group [] (.cons "time_0000000" (.group []
    (.cons "a" (.dset ⟨.int8, [1], [(1, 0)]⟩ []) .nil)) .nil), true, true⟩ 0 []
    (.cons "a" (.dset ⟨.int8, [1], [(1, 0)]⟩ []) .nil) "/a" rfl (by rfl) (by rfl)
